import Mathlib

/-!
Verification of the tic-tac-toe game-state engine in
`PostLab4Solution/oxo_logic.py` against its specification.

The board is embedded as a `List Char` (Python stores a list of
single-character strings).  Mutation of `self.game` becomes explicit
state passing: each operation takes the board and returns the new board
together with its result.  The `random.choice` draw in `_generateMove`
is abstracted by a natural number `k` selecting an index into the list
of available options.  The persistence module `oxo_data` is not part of
the sources, so its load/store contract is modelled from the spec.
-/

namespace OxoLogic

/-- `Game.__init__`: adopt a supplied snapshot only if it is truthy and
has length 9; otherwise start from 9 blank cells. -/
def init (game : Option (List Char)) : List Char :=
  match game with
  | some g => if g ≠ [] ∧ g.length = 9 then g else List.replicate 9 ' '
  | none => List.replicate 9 ' '

/-- `Game.newGame`: reset to the empty board and return it. -/
def newGame : List Char := List.replicate 9 ' '

/-- The eight fixed winning triples from `Game._isWinningMove`. -/
def wins : List (Nat × Nat × Nat) :=
  [(0,1,2), (3,4,5), (6,7,8),
   (0,3,6), (1,4,7), (2,5,8),
   (0,4,8), (2,4,6)]

/-- `chars = self.game[a] + self.game[b] + self.game[c]`. -/
def tripleChars (g : List Char) (t : Nat × Nat × Nat) : String :=
  String.mk [g.getD t.1 ' ', g.getD t.2.1 ' ', g.getD t.2.2 ' ']

/-- `Game._isWinningMove`: some triple reads `"XXX"` or `"OOO"`. -/
def isWinningMove (g : List Char) : Bool :=
  wins.any fun t => tripleChars g t == "XXX" || tripleChars g t == "OOO"

/-- `Game.userMove`: raise `ValueError("Invalid cell")` on an occupied
cell, else place `'X'` and report `"X"` on a winning state, `""`
otherwise.  The first component is the board after the call. -/
def userMove (g : List Char) (cell : Nat) : List Char × Except String String :=
  if g.getD cell ' ' ≠ ' ' then
    (g, Except.error "Invalid cell")
  else
    let g' := g.set cell 'X'
    (g', Except.ok (if isWinningMove g' then "X" else ""))

/-- `Game._generateMove`: the blank-cell indices of the board. -/
def options (g : List Char) : List Nat :=
  (List.range g.length).filter fun i => g.getD i ' ' == ' '

/-- `Game._generateMove`: `random.choice(options)` if any cell is
blank, else `-1`.  The draw is abstracted by `k`. -/
def generateMove (g : List Char) (k : Nat) : Int :=
  if (options g).isEmpty then -1
  else ((options g).getD (k % (options g).length) 0 : Nat)

/-- `Game.computerMove`: `"D"` on a full board, else place `'O'` on the
generated cell and report `"O"` on a winning state, `""` otherwise. -/
def computerMove (g : List Char) (k : Nat) : List Char × String :=
  let cell := generateMove g k
  if cell = -1 then (g, "D")
  else
    let g' := g.set cell.toNat 'O'
    (g', if isWinningMove g' then "O" else "")

/-- Modelled from the spec: the persistence adapter (`oxo_data`, absent
from the sources) keeps a single save slot; `store` overwrites it with
the snapshot (`oxo_data.saveGame`). -/
def adapterStore (_slot : Option (List Char)) (snapshot : List Char) :
    Option (List Char) := some snapshot

/-- Modelled from the spec: the adapter `load` (`oxo_data.restoreGame`)
returns the most recently stored snapshot, and fails (an `IOError`)
when none exists or on read error.  The outcome type of a load. -/
def adapterLoad (slot : Option (List Char)) : Except Unit (List Char) :=
  match slot with
  | some s => Except.ok s
  | none => Except.error ()

/-- `Game.saveGame`: hand the current board to the adapter store. -/
def saveGame (slot : Option (List Char)) (g : List Char) :
    Option (List Char) := adapterStore slot g

/-- `Game.restoreGame`, parameterised by the outcome of the
`oxo_data.restoreGame` call: install a loaded length-9 snapshot, and on
an `IOError` or a wrong-length snapshot fall back to `newGame`; return
the resulting board. -/
def restoreGame (loaded : Except Unit (List Char)) : List Char :=
  match loaded with
  | Except.error _ => newGame
  | Except.ok game => if game.length = 9 then game else newGame

/-! Spec-side predicates, written from the specification's words, to be
compared with the code's `isWinningMove`. -/

/-- The spec's phrase for one triple: it "holds three identical
non-blank symbols". -/
def specTripleWin (g : List Char) (t : Nat × Nat × Nat) : Prop :=
  g.getD t.1 ' ' = g.getD t.2.1 ' ' ∧
  g.getD t.2.1 ' ' = g.getD t.2.2 ' ' ∧
  g.getD t.1 ' ' ≠ ' '

instance (g : List Char) (t : Nat × Nat × Nat) :
    Decidable (specTripleWin g t) := by
  unfold specTripleWin; infer_instance

/-- The spec's winning condition: at least one of the 8 fixed triples
holds three identical non-blank symbols. -/
def specHasWin (g : List Char) : Prop :=
  ∃ t ∈ wins, specTripleWin g t

instance (g : List Char) : Decidable (specHasWin g) := by
  unfold specHasWin; infer_instance

/-- A valid board cell per the data model: blank, `'X'` or `'O'`. -/
def validCell (c : Char) : Prop := c = ' ' ∨ c = 'X' ∨ c = 'O'

instance {ε α : Type} [DecidableEq ε] [DecidableEq α] :
    DecidableEq (Except ε α) := fun a b =>
  match a, b with
  | Except.error x, Except.error y =>
      if h : x = y then isTrue (by rw [h])
      else isFalse (by intro hc; cases hc; exact h rfl)
  | Except.error _, Except.ok _ => isFalse (by intro hc; cases hc)
  | Except.ok _, Except.error _ => isFalse (by intro hc; cases hc)
  | Except.ok x, Except.ok y =>
      if h : x = y then isTrue (by rw [h])
      else isFalse (by intro hc; cases hc; exact h rfl)

instance (c : Char) : Decidable (validCell c) := by
  unfold validCell; infer_instance

end OxoLogic

namespace OxoLogic

theorem getD_set_self (l : List Char) (n : Nat) (a d : Char) (h : n < l.length) :
    (l.set n a).getD n d = a := by
  rw [List.getD_eq_getElem _ _ (by simpa using h)]
  exact List.getElem_set_self _

theorem getD_set_ne (l : List Char) (m n : Nat) (a d : Char) (h : m ≠ n) :
    (l.set m a).getD n d = l.getD n d := by
  simp [List.getD_eq_getElem?_getD, List.getElem?_set_ne h]

theorem tripleKey {x y z : Char}
    (hx : validCell x) (hy : validCell y) (hz : validCell z) :
    (String.mk [x, y, z] == "XXX" || String.mk [x, y, z] == "OOO") = true ↔
      (x = y ∧ y = z ∧ x ≠ ' ') := by
  rcases hx with rfl | rfl | rfl <;> rcases hy with rfl | rfl | rfl <;>
    rcases hz with rfl | rfl | rfl <;> decide

theorem isWinningMove_iff_specHasWin (g : List Char)
    (hv : ∀ i, i < 9 → validCell (g.getD i ' ')) :
    isWinningMove g = true ↔ specHasWin g := by
  have h0 := hv 0 (by norm_num)
  have h1 := hv 1 (by norm_num)
  have h2 := hv 2 (by norm_num)
  have h3 := hv 3 (by norm_num)
  have h4 := hv 4 (by norm_num)
  have h5 := hv 5 (by norm_num)
  have h6 := hv 6 (by norm_num)
  have h7 := hv 7 (by norm_num)
  have h8 := hv 8 (by norm_num)
  have key : ∀ t ∈ wins,
      ((tripleChars g t == "XXX" || tripleChars g t == "OOO") = true ↔
        specTripleWin g t) := by
    intro t ht
    fin_cases ht
    · exact tripleKey h0 h1 h2
    · exact tripleKey h3 h4 h5
    · exact tripleKey h6 h7 h8
    · exact tripleKey h0 h3 h6
    · exact tripleKey h1 h4 h7
    · exact tripleKey h2 h5 h8
    · exact tripleKey h0 h4 h8
    · exact tripleKey h2 h4 h6
  unfold isWinningMove specHasWin
  rw [List.any_eq_true]
  constructor
  · rintro ⟨t, ht, hp⟩
    exact ⟨t, ht, (key t ht).mp hp⟩
  · rintro ⟨t, ht, hs⟩
    exact ⟨t, ht, (key t ht).mpr hs⟩

theorem mem_options (g : List Char) (i : Nat) (hi : i ∈ options g) :
    i < g.length ∧ g.getD i ' ' = ' ' := by
  unfold options at hi
  have h := List.mem_filter.mp hi
  exact ⟨List.mem_range.mp h.1, by simpa using h.2⟩

theorem options_eq_nil (g : List Char)
    (hfull : ∀ i, i < g.length → g.getD i ' ' ≠ ' ') : options g = [] := by
  unfold options
  apply List.filter_eq_nil_iff.mpr
  intro i hi
  simp only [beq_iff_eq]
  exact hfull i (List.mem_range.mp hi)

theorem options_ne_nil (g : List Char) (i : Nat)
    (hi : i < g.length) (hb : g.getD i ' ' = ' ') : options g ≠ [] := by
  intro hc
  have hm : i ∈ options g := by
    unfold options
    rw [List.mem_filter]
    exact ⟨List.mem_range.mpr hi, by simpa using hb⟩
  rw [hc] at hm
  exact absurd hm (List.not_mem_nil i)

theorem computerMove_full (g : List Char) (k : Nat)
    (hfull : ∀ i, i < g.length → g.getD i ' ' ≠ ' ') :
    computerMove g k = (g, "D") := by
  unfold computerMove generateMove
  rw [options_eq_nil g hfull]
  simp

theorem generateMove_mem (g : List Char) (k : Nat) (hne : options g ≠ []) :
    ∃ i ∈ options g, generateMove g k = (i : Int) := by
  unfold generateMove
  rw [if_neg (by simpa [List.isEmpty_iff] using hne)]
  have hlen : 0 < (options g).length := List.length_pos.mpr hne
  have hlt : k % (options g).length < (options g).length := Nat.mod_lt _ hlen
  refine ⟨(options g).getD (k % (options g).length) 0, ?_, rfl⟩
  rw [List.getD_eq_getElem _ _ hlt]
  exact List.getElem_mem hlt

theorem computerMove_places (g : List Char) (k : Nat) (hne : options g ≠ []) :
    ∃ i, i < g.length ∧ g.getD i ' ' = ' ' ∧
      computerMove g k =
        (g.set i 'O', if isWinningMove (g.set i 'O') then "O" else "") := by
  obtain ⟨i, hmem, hgen⟩ := generateMove_mem g k hne
  obtain ⟨hlt, hblank⟩ := mem_options g i hmem
  refine ⟨i, hlt, hblank, ?_⟩
  unfold computerMove
  rw [hgen, if_neg (by omega : ¬ ((i : Int) = -1))]
  simp

/-- C1: for every board and every cell index in [0,8] whose cell is not
blank, `userMove` fails with the invalid-move error and leaves the board
unchanged; and it fails in this way if and only if the targeted cell is
occupied. -/
theorem userMove_occupied_fails (g : List Char) (cell : Nat)
    (h9 : g.length = 9) (hc : cell < 9) :
    (g.getD cell ' ' ≠ ' ' →
      userMove g cell = (g, Except.error "Invalid cell")) ∧
    ((userMove g cell).2 = Except.error "Invalid cell" ↔
      g.getD cell ' ' ≠ ' ') := by
  unfold userMove
  by_cases h : g.getD cell ' ' = ' '
  · rw [if_neg (by simpa using h)]
    exact ⟨fun hocc => absurd h hocc,
      fun habs => absurd (Except.noConfusion habs) id,
      fun hocc => absurd h hocc⟩
  · rw [if_pos h]
    exact ⟨fun _ => rfl, fun _ => h, fun _ => rfl⟩

theorem userMove_occupied_fails_witness :
    ((['X','O',' ',' ',' ',' ',' ',' ',' '] : List Char).getD 0 ' ' ≠ ' ' →
      userMove ['X','O',' ',' ',' ',' ',' ',' ',' '] 0 =
        (['X','O',' ',' ',' ',' ',' ',' ',' '], Except.error "Invalid cell")) ∧
    ((userMove ['X','O',' ',' ',' ',' ',' ',' ',' '] 0).2 =
        Except.error "Invalid cell" ↔
      (['X','O',' ',' ',' ',' ',' ',' ',' '] : List Char).getD 0 ' ' ≠ ' ') :=
  userMove_occupied_fails ['X','O',' ',' ',' ',' ',' ',' ',' '] 0
    (by decide) (by decide)

/-- C3: `isWinningMove` is true iff one of the 8 fixed triples holds
three identical non-blank symbols (for boards over the three-symbol
alphabet); it is false on the empty board and on a full draw board. -/
theorem isWinningMove_spec (g : List Char) (h9 : g.length = 9)
    (hv : ∀ i, i < 9 → validCell (g.getD i ' ')) :
    (isWinningMove g = true ↔ specHasWin g) ∧
    isWinningMove newGame = false ∧
    isWinningMove ['X','O','X','X','O','O','O','X','X'] = false :=
  ⟨isWinningMove_iff_specHasWin g hv, by decide, by decide⟩

theorem isWinningMove_spec_witness :
    ((isWinningMove ['X','X','X',' ',' ',' ',' ',' ',' '] = true ↔
        specHasWin ['X','X','X',' ',' ',' ',' ',' ',' ']) ∧
      isWinningMove newGame = false ∧
      isWinningMove ['X','O','X','X','O','O','O','X','X'] = false) ∧
    isWinningMove ['X','X','X',' ',' ',' ',' ',' ',' '] = true :=
  ⟨isWinningMove_spec ['X','X','X',' ',' ',' ',' ',' ',' ']
      (by decide) (by decide),
    by decide⟩

/-- C4: `computerMove` on a full board returns `"D"` and changes
nothing; on a board with a blank cell it fills exactly one previously
blank cell with `'O'` and returns `"O"` or `""`. -/
theorem computerMove_cases (g : List Char) (k : Nat) (h9 : g.length = 9) :
    ((∀ i, i < 9 → g.getD i ' ' ≠ ' ') → computerMove g k = (g, "D")) ∧
    ((∃ i, i < 9 ∧ g.getD i ' ' = ' ') →
      ∃ i, i < 9 ∧ g.getD i ' ' = ' ' ∧
        (computerMove g k).1 = g.set i 'O' ∧
        ((computerMove g k).2 = "O" ∨ (computerMove g k).2 = "")) := by
  constructor
  · intro hfull
    exact computerMove_full g k (fun i hi => hfull i (h9 ▸ hi))
  · rintro ⟨i, hi, hb⟩
    obtain ⟨j, hj, hjb, heq⟩ :=
      computerMove_places g k (options_ne_nil g i (by omega) hb)
    refine ⟨j, by omega, hjb, by rw [heq], ?_⟩
    rw [heq]
    by_cases hw : isWinningMove (g.set j 'O') = true
    · left; simp [hw]
    · right; simp [hw]

theorem computerMove_cases_witness :
    ((∀ i, i < 9 →
        (['X','O','X','O','X','O','X','O','X'] : List Char).getD i ' ' ≠ ' ') →
      computerMove ['X','O','X','O','X','O','X','O','X'] 0 =
        (['X','O','X','O','X','O','X','O','X'], "D")) ∧
    ((∃ i, i < 9 ∧
        (['X','O','X','O','X','O','X','O','X'] : List Char).getD i ' ' = ' ') →
      ∃ i, i < 9 ∧
        (['X','O','X','O','X','O','X','O','X'] : List Char).getD i ' ' = ' ' ∧
        (computerMove ['X','O','X','O','X','O','X','O','X'] 0).1 =
          (['X','O','X','O','X','O','X','O','X'] : List Char).set i 'O' ∧
        ((computerMove ['X','O','X','O','X','O','X','O','X'] 0).2 = "O" ∨
          (computerMove ['X','O','X','O','X','O','X','O','X'] 0).2 = "")) :=
  computerMove_cases ['X','O','X','O','X','O','X','O','X'] 0 (by decide)

/-- C10: on a full board `computerMove` reports a draw, never a win,
even when the board contains a completed winning triple. -/
theorem computerMove_full_ignores_win (g : List Char) (k : Nat)
    (h9 : g.length = 9) (hfull : ∀ i, i < 9 → g.getD i ' ' ≠ ' ') :
    computerMove g k = (g, "D") ∧ (computerMove g k).2 ≠ "O" := by
  have h := computerMove_full g k (fun i hi => hfull i (h9 ▸ hi))
  have hDO : ("D" : String) ≠ "O" := by decide
  exact ⟨h, by rw [h]; exact hDO⟩

theorem computerMove_full_ignores_win_witness :
    isWinningMove ['X','X','X','O','O','X','X','O','O'] = true ∧
    (computerMove ['X','X','X','O','O','X','X','O','O'] 0 =
        (['X','X','X','O','O','X','X','O','O'], "D") ∧
      (computerMove ['X','X','X','O','O','X','X','O','O'] 0).2 ≠ "O") :=
  ⟨by decide,
    computerMove_full_ignores_win ['X','X','X','O','O','X','X','O','O'] 0
      (by decide) (by decide)⟩

/-- C2 fails on the code, for both operations.  `userMove 3` on the
board `OOO      ` (a completed `'O'` line, no `'X'` line) targets a
blank cell and does not complete an `'X'` line, yet returns `"X"`
rather than `""`.  `computerMove` (draw index 0) on the board
`XXXO    O` (a completed `'X'` line) places `'O'` on the blank cell 4
without completing an `'O'` line, yet returns `"O"` rather than `""`.
Both happen because `_isWinningMove` matches triples of either
symbol. -/
theorem preexisting_line_reported_counterexample :
    (['O','O','O',' ',' ',' ',' ',' ',' '] : List Char).getD 3 ' ' = ' ' ∧
    specTripleWin ['O','O','O',' ',' ',' ',' ',' ',' '] (0, 1, 2) ∧
    (∀ t ∈ wins,
      tripleChars (['O','O','O','X',' ',' ',' ',' ',' '] : List Char) t ≠
        "XXX") ∧
    (userMove ['O','O','O',' ',' ',' ',' ',' ',' '] 3).2 = Except.ok "X" ∧
    (userMove ['O','O','O',' ',' ',' ',' ',' ',' '] 3).2 ≠ Except.ok "" ∧
    (['X','X','X','O',' ',' ',' ',' ','O'] : List Char).getD 4 ' ' = ' ' ∧
    specTripleWin ['X','X','X','O',' ',' ',' ',' ','O'] (0, 1, 2) ∧
    (∀ t ∈ wins,
      tripleChars (['X','X','X','O','O',' ',' ',' ','O'] : List Char) t ≠
        "OOO") ∧
    computerMove ['X','X','X','O',' ',' ',' ',' ','O'] 0 =
      (['X','X','X','O','O',' ',' ',' ','O'], "O") ∧
    (computerMove ['X','X','X','O',' ',' ',' ',' ','O'] 0).2 ≠ "" := by
  decide

theorem validCell_set (g : List Char) (cell : Nat) (c : Char)
    (h9 : g.length = 9) (hc : cell < 9) (hcv : validCell c)
    (hv : ∀ i, i < 9 → validCell (g.getD i ' ')) :
    ∀ i, i < 9 → validCell ((g.set cell c).getD i ' ') := by
  intro i hi
  by_cases hic : cell = i
  · subst hic
    rw [getD_set_self _ _ _ _ (by omega)]
    exact hcv
  · rw [getD_set_ne _ _ _ _ _ hic]
    exact hv i hi

/-- C2 (amended): a move on a blank cell reports a win, labelled with
the just-placed symbol (`"X"` for `userMove`, `"O"` for
`computerMove`), exactly when the post-move board holds any completed
triple of either symbol — including a pre-existing triple of the
opposite symbol that the new move did not touch. -/
theorem move_on_blank_reports_any_line (g : List Char) (cell k : Nat)
    (h9 : g.length = 9) (hc : cell < 9)
    (hv : ∀ i, i < 9 → validCell (g.getD i ' '))
    (hblank : g.getD cell ' ' = ' ') :
    ((userMove g cell).1 = g.set cell 'X' ∧
      ((userMove g cell).2 = Except.ok "X" ↔ specHasWin (g.set cell 'X'))) ∧
    (∃ i, i < 9 ∧ g.getD i ' ' = ' ' ∧
      (computerMove g k).1 = g.set i 'O' ∧
      ((computerMove g k).2 = "O" ↔ specHasWin (g.set i 'O'))) := by
  constructor
  · have hw := isWinningMove_iff_specHasWin (g.set cell 'X')
      (validCell_set g cell 'X' h9 hc (Or.inr (Or.inl rfl)) hv)
    simp only [userMove]
    rw [if_neg (by simpa using hblank)]
    refine ⟨rfl, ?_⟩
    by_cases hwin : isWinningMove (g.set cell 'X') = true
    · rw [if_pos hwin]
      exact ⟨fun _ => hw.mp hwin, fun _ => rfl⟩
    · rw [if_neg hwin]
      constructor
      · intro habs
        have hstr : ("" : String) = "X" := by injection habs
        exact absurd hstr (by decide)
      · intro hs
        exact absurd (hw.mpr hs) hwin
  · obtain ⟨i, hi, hib, heq⟩ :=
      computerMove_places g k (options_ne_nil g cell (by omega) hblank)
    have hw := isWinningMove_iff_specHasWin (g.set i 'O')
      (validCell_set g i 'O' h9 (by omega) (Or.inr (Or.inr rfl)) hv)
    refine ⟨i, by omega, hib, by rw [heq], ?_⟩
    rw [heq]
    by_cases hwin : isWinningMove (g.set i 'O') = true
    · rw [if_pos hwin]
      exact ⟨fun _ => hw.mp hwin, fun _ => rfl⟩
    · rw [if_neg hwin]
      constructor
      · intro habs
        have hstr : ("" : String) ≠ "O" := by decide
        exact absurd habs hstr
      · intro hs
        exact absurd (hw.mpr hs) hwin

theorem move_on_blank_reports_any_line_witness :
    ((userMove ['O','O','O',' ',' ',' ',' ',' ',' '] 3).1 =
        (['O','O','O',' ',' ',' ',' ',' ',' '] : List Char).set 3 'X' ∧
      ((userMove ['O','O','O',' ',' ',' ',' ',' ',' '] 3).2 =
          Except.ok "X" ↔
        specHasWin
          ((['O','O','O',' ',' ',' ',' ',' ',' '] : List Char).set 3 'X'))) ∧
    (∃ i, i < 9 ∧
      (['O','O','O',' ',' ',' ',' ',' ',' '] : List Char).getD i ' ' = ' ' ∧
      (computerMove ['O','O','O',' ',' ',' ',' ',' ',' '] 0).1 =
        (['O','O','O',' ',' ',' ',' ',' ',' '] : List Char).set i 'O' ∧
      ((computerMove ['O','O','O',' ',' ',' ',' ',' ',' '] 0).2 = "O" ↔
        specHasWin
          ((['O','O','O',' ',' ',' ',' ',' ',' '] : List Char).set i 'O'))) :=
  move_on_blank_reports_any_line ['O','O','O',' ',' ',' ',' ',' ',' '] 3 0
    (by decide) (by decide) (by decide) (by decide)

/-- C5: the board length is exactly 9 after construction, `newGame`,
`userMove`, `computerMove` and `restoreGame`, and a supplied snapshot
of another length never replaces the board. -/
theorem board_length_always_nine (gOpt : Option (List Char))
    (g s : List Char) (cell k : Nat) (loaded : Except Unit (List Char))
    (h9 : g.length = 9) (hs : s.length ≠ 9) :
    (init gOpt).length = 9 ∧
    newGame.length = 9 ∧
    ((userMove g cell).1).length = 9 ∧
    ((computerMove g k).1).length = 9 ∧
    (restoreGame loaded).length = 9 ∧
    init (some s) = List.replicate 9 ' ' ∧
    restoreGame (Except.ok s) = List.replicate 9 ' ' := by
  refine ⟨?_, by simp [newGame], ?_, ?_, ?_, ?_, ?_⟩
  · cases gOpt with
    | none => simp [init]
    | some g0 =>
        simp only [init]
        split
        next h => exact h.2
        next => simp
  · simp only [userMove]
    split
    · exact h9
    · simp [h9]
  · simp only [computerMove]
    split
    · exact h9
    · simp [h9]
  · cases loaded with
    | error e => simp [restoreGame, newGame]
    | ok s0 =>
        simp only [restoreGame]
        split
        next h => exact h
        next => simp [newGame]
  · simp only [init]
    rw [if_neg (fun h => hs h.2)]
  · simp only [restoreGame]
    rw [if_neg hs]
    exact rfl

theorem board_length_always_nine_witness :
    (init none).length = 9 ∧
    newGame.length = 9 ∧
    ((userMove newGame 0).1).length = 9 ∧
    ((computerMove newGame 0).1).length = 9 ∧
    (restoreGame (Except.error ())).length = 9 ∧
    init (some ['X']) = List.replicate 9 ' ' ∧
    restoreGame (Except.ok ['X']) = List.replicate 9 ' ' :=
  board_length_always_nine none newGame ['X'] 0 0 (Except.error ())
    (by decide) (by decide)

/-- C6: `restoreGame` never propagates an error: a failed load or a
wrong-length snapshot yields the fresh all-blank board, a length-9
snapshot is installed, and the resulting board is returned. -/
theorem restoreGame_never_fails (s : List Char) :
    restoreGame (Except.error ()) = List.replicate 9 ' ' ∧
    restoreGame (Except.error ()) = newGame ∧
    (s.length = 9 → restoreGame (Except.ok s) = s) ∧
    (s.length ≠ 9 → restoreGame (Except.ok s) = List.replicate 9 ' ') := by
  refine ⟨rfl, rfl, fun h => ?_, fun h => ?_⟩
  · simp only [restoreGame]; rw [if_pos h]
  · simp only [restoreGame]; rw [if_neg h]; exact rfl

theorem restoreGame_never_fails_witness :
    restoreGame (Except.ok (List.replicate 9 'Z')) = List.replicate 9 'Z' ∧
    restoreGame (Except.ok ['X']) = List.replicate 9 ' ' :=
  ⟨(restoreGame_never_fails (List.replicate 9 'Z')).2.2.1 (by decide),
    (restoreGame_never_fails ['X']).2.2.2 (by decide)⟩

/-- C7: saving a valid 9-cell board and restoring against a store with
no intervening failure yields the board that was saved. -/
theorem save_restore_roundtrip (g : List Char) (slot : Option (List Char))
    (h9 : g.length = 9)
    (hv : ∀ i, i < 9 → validCell (g.getD i ' ')) :
    restoreGame (adapterLoad (saveGame slot g)) = g := by
  show restoreGame (Except.ok g) = g
  simp only [restoreGame]
  rw [if_pos h9]

theorem save_restore_roundtrip_witness :
    restoreGame (adapterLoad (saveGame none newGame)) = newGame ∧
    restoreGame
        (adapterLoad (saveGame none ['X','O','X','O','X','O','X','O','X'])) =
      ['X','O','X','O','X','O','X','O','X'] :=
  ⟨save_restore_roundtrip newGame none (by decide) (by decide),
    save_restore_roundtrip ['X','O','X','O','X','O','X','O','X'] none
      (by decide) (by decide)⟩

/-- C8: from a new game, `userMove i` succeeds for every `i` in [0,8],
sets cell `i` to `'X'`, returns `""`, and leaves every other cell
blank. -/
theorem newGame_userMove_frame (i : Nat) (hi : i < 9) :
    userMove newGame i = (newGame.set i 'X', Except.ok "") ∧
    (userMove newGame i).1.getD i ' ' = 'X' ∧
    (∀ j, j < 9 → j ≠ i → (userMove newGame i).1.getD j ' ' = ' ') := by
  revert i
  decide

theorem newGame_userMove_frame_witness :
    userMove newGame 4 = (newGame.set 4 'X', Except.ok "") ∧
    (userMove newGame 4).1.getD 4 ' ' = 'X' ∧
    (∀ j, j < 9 → j ≠ 4 → (userMove newGame 4).1.getD j ' ' = ' ') :=
  newGame_userMove_frame 4 (by decide)

/-- C9: snapshot content is never validated, only length: construction
adopts any length-9 sequence verbatim, a falsy argument or another
length yields the blank board, and `restoreGame` installs any loaded
length-9 snapshot unchecked. -/
theorem snapshot_content_unchecked (s t : List Char)
    (h9 : s.length = 9) (hlen : t.length ≠ 9) :
    init (some s) = s ∧
    init none = List.replicate 9 ' ' ∧
    init (some []) = List.replicate 9 ' ' ∧
    init (some t) = List.replicate 9 ' ' ∧
    restoreGame (Except.ok s) = s := by
  have hne : s ≠ [] := by
    intro hc
    rw [hc] at h9
    simp at h9
  refine ⟨?_, rfl, ?_, ?_, ?_⟩
  · simp only [init]; rw [if_pos ⟨hne, h9⟩]
  · simp only [init]; rw [if_neg (fun h => h.1 rfl)]
  · simp only [init]; rw [if_neg (fun h => hlen h.2)]
  · simp only [restoreGame]; rw [if_pos h9]

theorem snapshot_content_unchecked_witness :
    init (some (List.replicate 9 'Z')) = List.replicate 9 'Z' ∧
    init none = List.replicate 9 ' ' ∧
    init (some []) = List.replicate 9 ' ' ∧
    init (some ['Q','Q']) = List.replicate 9 ' ' ∧
    restoreGame (Except.ok (List.replicate 9 'Z')) = List.replicate 9 'Z' :=
  snapshot_content_unchecked (List.replicate 9 'Z') ['Q','Q']
    (by decide) (by decide)

end OxoLogic
